import Mathlib

set_option linter.unusedVariables false
set_option maxRecDepth 8192

namespace RagSpec

/-! # Shallow embedding of the RAG ingestion subsystem

Source files embedded here:
  * embedding.ts            — batched embedding generation
  * ingest-templates.ts     — template-search ingestion (origin B)
  * the documentation ingestion module (part_003) — origin A and the
    overall ingestion run

JavaScript strings are modeled as Lean `String`; the string operations
the source uses (slice, includes, split, trim, parseFloat) are
implemented below over `String.data`. JavaScript numbers that the
source compares and maximizes (version numbers) are modeled exactly as
rationals; vector components as rationals. Network and database effects
are modeled by environment records of outcomes: a fallible call either
returns a value or throws with a message. -/

/-! ## Character and string utilities -/

/-- The ASCII part of the JS regex whitespace class and of the set
JS trim removes (the Unicode extras never arise in the texts modeled). -/
def isWsChar (c : Char) : Bool :=
  c == ' ' || c == '\t' || c == '\n' || c == '\r' ||
    c == Char.ofNat 11 || c == Char.ofNat 12

/-- Case-insensitive character equality (regex flag i). -/
def ciEq (a b : Char) : Bool := a.toLower == b.toLower

/-- JS toLowerCase, character by character. -/
def lowerStr (s : String) : String := String.mk (s.data.map Char.toLower)

/-- pat is a case-insensitive prefix of cs. -/
def ciPrefix : List Char → List Char → Bool
  | [], _ => true
  | _ :: _, [] => false
  | p :: ps, c :: cs => ciEq p c && ciPrefix ps cs

/-- Some pattern of pats is a (case-sensitive) prefix of cs. -/
def anyPrefix (pats : List (List Char)) (cs : List Char) : Bool :=
  pats.any (fun p => p.isPrefixOf cs)

/-- cs contains pat as a contiguous substring (JS includes). -/
def hasSub (pat : List Char) : List Char → Bool
  | [] => pat.isEmpty
  | c :: cs => pat.isPrefixOf (c :: cs) || hasSub pat cs

/-- JS hay.includes(pat). -/
def strIncludes (hay pat : String) : Bool := hasSub pat.data hay.data

/-- Index of the first occurrence of pat in cs (JS indexOf, none for -1). -/
def findSub (pat : List Char) : List Char → Option Nat
  | [] => if pat.isEmpty then some 0 else none
  | c :: cs =>
    if pat.isPrefixOf (c :: cs) then some 0
    else (findSub pat cs).map (· + 1)

/-- Characters of cs before the first position where one of the
terminator patterns begins; all of cs when none occurs. Models a lazy
regex span stopped by a lookahead alternation or by end of input. -/
def takeUntilAny (terms : List (List Char)) : List Char → List Char
  | [] => []
  | c :: cs => if anyPrefix terms (c :: cs) then [] else c :: takeUntilAny terms cs

/-- JS trim (ASCII whitespace at both ends). -/
def trimChars (cs : List Char) : List Char :=
  ((cs.dropWhile isWsChar).reverse.dropWhile isWsChar).reverse

/-- JS split on a one-character separator. -/
def splitOnChar (sep : Char) : List Char → List (List Char)
  | [] => [[]]
  | c :: cs =>
    let rest := splitOnChar sep cs
    if c == sep then [] :: rest
    else
      match rest with
      | [] => [[c]]
      | r :: rs => (c :: r) :: rs

/-- Numeric value of a run of decimal digits. -/
def digitsVal (ds : List Char) : Nat :=
  ds.foldl (fun n d => 10 * n + (d.toNat - 48)) 0

/-- JS parseFloat restricted to the digits-and-dots pieces the version
extractor feeds it: the longest prefix of shape digits [dot digits] is
parsed; none models NaN (no digit found). Decimal literals are modeled
exactly as rationals. -/
def parseFloatQ (cs : List Char) : Option ℚ :=
  let intPart := cs.takeWhile Char.isDigit
  let rest := cs.drop intPart.length
  let fracPart :=
    match rest with
    | '.' :: rs => rs.takeWhile Char.isDigit
    | _ => []
  if intPart.isEmpty && fracPart.isEmpty then none
  else
    some (mkRat (digitsVal intPart * 10 ^ fracPart.length + digitsVal fracPart)
      (10 ^ fracPart.length))

/-- JS s.slice(0, n): the first n characters. -/
def sliceTo (s : String) (n : Nat) : String := String.mk (s.data.take n)

/-- First occurrence of each string kept, later duplicates dropped
(insertion into a JS Set, checked against the seen accumulator). -/
def dedupFirst : List String → List String → List String
  | [], _ => []
  | x :: xs, seen =>
    if seen.contains x then dedupFirst xs seen else x :: dedupFirst xs (x :: seen)

/-- JS Map.get over an association list whose keys are unique. -/
def jsGet {α : Type} (m : List (String × α)) (k : String) : Option α :=
  (m.find? (fun p => p.1 == k)).map (·.2)

/-- Outcome of one fallible asynchronous call: a value, or a thrown
error carrying its message. -/
inductive Outcome (α : Type) where
  | ok (value : α)
  | thrown (msg : String)
deriving DecidableEq

/-- The maximum element of a list of rationals, none for the empty
list. -/
def listMax : List ℚ → Option ℚ
  | [] => none
  | a :: l =>
    match listMax l with
    | some m => some (max a m)
    | none => some a

/-! ## embedding.ts -/

namespace Embedding

/-- embedding.ts line 31: per-call batch limit sent to the provider. -/
def BATCH_SIZE : Nat := 512

/-- generateEmbedding (embedding.ts lines 15-21): embeds one text with
the external provider, which is modeled as a function parameter. -/
def generateEmbedding (provider : String → List ℚ) (text : String) : List ℚ :=
  provider text

/-- The external embedMany call of the ai package: the provider returns
one vector per input value, in input order (its documented contract;
the package is outside this repository). -/
def embedMany (provider : String → List ℚ) (values : List String) : List (List ℚ) :=
  values.map provider

/-- generateEmbeddings (embedding.ts lines 27-44): walks texts in
batches of BATCH_SIZE and concatenates the per-batch results. -/
def generateEmbeddings (provider : String → List ℚ) (texts : List String) :
    List (List ℚ) :=
  if h : texts.isEmpty then []
  else
    embedMany provider (texts.take BATCH_SIZE) ++
      generateEmbeddings provider (texts.drop BATCH_SIZE)
termination_by texts.length
decreasing_by
  have hne : texts ≠ [] := by simpa using h
  have hpos : 0 < texts.length := List.length_pos.mpr hne
  simp only [List.length_drop, BATCH_SIZE]
  omega


end Embedding

/-! ## ingest-templates.ts — origin B: template search ingestion -/

namespace Templates

/-- ingest-templates.ts line 12: content cap for template records. -/
def MAX_CONTENT_LENGTH : Nat := 3000

/-- ingest-templates.ts line 18: detail-fetch batch width. -/
def CONCURRENCY : Nat := 5

/-- A category object of the template API (only its name is read). -/
structure Category where
  name : String
deriving DecidableEq

/-- TemplateSearchResult (ingest-templates.ts lines 28-37): one summary
row of the search endpoint, with the fields the pipeline reads (the
nodes array of a summary is never read downstream and is omitted). -/
structure TemplateSearchResult where
  id : Nat
  name : String
  description : Option String := none
  totalViews : Option Nat := none
  category : Option Category := none
  categories : Option (List Category) := none
deriving DecidableEq

/-- What one search-page request yields: a thrown fetch error (a non-2xx
status or exhausted 429 retries inside fetchWithRetry), or the parsed
page's workflows list. A response without a workflows array behaves like
an empty list: both break the page loop. -/
inductive PageResult where
  | thrown (msg : String)
  | page (workflows : List TemplateSearchResult)

/-- The search endpoint as the two query phases see it. -/
structure SearchEnv where
  aiPage : Nat → PageResult
  generalPage : Nat → PageResult

/-- The per-page dedup body (ingest-templates.ts lines 178-183 and
207-212): each workflow of a page is appended unless its id is already
in the seen set. -/
def insertSummaries : List TemplateSearchResult → List TemplateSearchResult →
    List Nat → List TemplateSearchResult × List Nat
  | [], acc, seen => (acc, seen)
  | t :: ts, acc, seen =>
    if t.id ∈ seen then insertSummaries ts acc seen
    else insertSummaries ts (acc ++ [t]) (t.id :: seen)

/-- One phase's page loop: pages fetched in order; a thrown fetch or an
empty page breaks out of the phase (the catch/break of lines 176 and
188-194 and their phase-2 twins). -/
def collectPages (fetch : Nat → PageResult) : List Nat →
    List TemplateSearchResult → List Nat → List TemplateSearchResult × List Nat
  | [], acc, seen => (acc, seen)
  | p :: ps, acc, seen =>
    match fetch p with
    | .thrown _ => (acc, seen)
    | .page ws =>
      if ws.isEmpty then (acc, seen)
      else
        let st := insertSummaries ws acc seen
        collectPages fetch ps st.1 st.2

/-- fetchTemplateList (ingest-templates.ts lines 164-230): phase 1
(category ai, pages 1-4) then phase 2 (general, pages 1-2), sharing one
seen-id set across both phases. -/
def fetchTemplateList (env : SearchEnv) : List TemplateSearchResult :=
  let st1 := collectPages env.aiPage [1, 2, 3, 4] [] []
  (collectPages env.generalPage [1, 2] st1.1 st1.2).1

/-- The summaries the two phases actually deliver, in arrival order: the
page contents of a phase up to its first thrown fetch or empty page. -/
def phaseStream (fetch : Nat → PageResult) : List Nat → List TemplateSearchResult
  | [] => []
  | p :: ps =>
    match fetch p with
    | .thrown _ => []
    | .page ws => if ws.isEmpty then [] else ws ++ phaseStream fetch ps

/-- First-occurrence-wins dedup by template id, as the spec words it. -/
def dedupById (seen : List Nat) : List TemplateSearchResult → List TemplateSearchResult
  | [] => []
  | t :: ts =>
    if t.id ∈ seen then dedupById seen ts else t :: dedupById (t.id :: seen) ts

/-- The seen-id set after processing a list of summaries. -/
def seenAfter (seen : List Nat) : List TemplateSearchResult → List Nat
  | [] => seen
  | t :: ts => if t.id ∈ seen then seenAfter seen ts else seenAfter (t.id :: seen) ts


/-- A node of the nested workflow payload, with the fields the pipeline
reads (parameters, position and credentials are carried opaquely by the
real payload and never inspected, so they are omitted). -/
structure WorkflowNode where
  id : Option String := none
  name : String
  type : String
  typeVersion : Option ℚ := none
deriving DecidableEq

/-- One connection target object, { node: name }. -/
structure ConnTarget where
  node : String
deriving DecidableEq

/-- One node's connection record: the main port plus auxiliary typed
ports keyed by connection type (ai_languageModel and friends). -/
structure NodeConnection where
  main : Option (List (List ConnTarget)) := none
  aux : List (String × List (List ConnTarget)) := []
deriving DecidableEq

/-- The connections map of a workflow, keyed by source node name. -/
abbrev Connections := List (String × NodeConnection)

/-- The inner workflow object of the doubly-nested detail response. -/
structure InnerWorkflow where
  nodes : Option (List WorkflowNode) := none
  connections : Option Connections := none
deriving DecidableEq

/-- The outer envelope of the detail response (lines 50-71). -/
structure OuterWorkflow where
  id : Option Nat := none
  name : Option String := none
  description : Option String := none
  totalViews : Option Nat := none
  categories : Option (List Category) := none
  workflow : Option InnerWorkflow := none
deriving DecidableEq

/-- Flattened template detail (ingest-templates.ts lines 74-90). -/
structure TemplateDetail where
  id : Nat
  name : String
  description : Option String := none
  totalViews : Option Nat := none
  categories : Option (List Category) := none
  workflowNodes : List WorkflowNode := []
  workflowConnections : Connections := []
deriving DecidableEq

/-- What the detail endpoint yields for one template id: a thrown fetch
error (a non-2xx status other than 429, or exhausted 429 retries inside
fetchWithRetry), or the parsed response body, whose outer workflow field
may be absent. -/
inductive DetailOutcome where
  | thrown (msg : String)
  | ok (workflow : Option OuterWorkflow)
deriving DecidableEq

structure DetailEnv where
  detail : Nat → DetailOutcome

/-- fetchTemplateDetail (ingest-templates.ts lines 236-266). Every
failure path — the thrown fetch included, caught at lines 259-265 —
returns none: the function itself never rejects. -/
def fetchTemplateDetail (env : DetailEnv) (templateId : Nat) : Option TemplateDetail :=
  match env.detail templateId with
  | .thrown _ => none
  | .ok outerOpt =>
    match outerOpt with
    | none => none
    | some outer =>
      match outer.workflow with
      | none => none
      | some innerWf =>
        match innerWf.nodes with
        | none => none
        | some ns =>
          if ns.isEmpty then none
          else
            some
              { id := outer.id.getD templateId
                name := outer.name.getD ("Template " ++ toString templateId)
                description := outer.description
                totalViews := outer.totalViews
                categories := outer.categories
                workflowNodes := ns
                workflowConnections := innerWf.connections.getD [] }

/-- One settled batch folded into the detail accumulator
(ingest-templates.ts lines 284-297): fulfilled non-null values are kept;
the rejected branch cannot fire, because fetchTemplateDetail catches
internally and always resolves (possibly with null). -/
def foldBatch (env : DetailEnv) : List TemplateSearchResult →
    List TemplateDetail → List TemplateDetail
  | [], details => details
  | s :: ss, details =>
    match fetchTemplateDetail env s.id with
    | some d => foldBatch env ss (details ++ [d])
    | none => foldBatch env ss details

/-- The batch loop of fetchAllTemplateDetails (lines 277-303): slices of
CONCURRENCY summaries at a time; the inter-batch delay is a pure timing
concern with no data effect. -/
def fetchBatches (env : DetailEnv) (summaries : List TemplateSearchResult)
    (details : List TemplateDetail) : List TemplateDetail :=
  if h : summaries.isEmpty then details
  else
    fetchBatches env (summaries.drop CONCURRENCY)
      (foldBatch env (summaries.take CONCURRENCY) details)
termination_by summaries.length
decreasing_by
  have hne : summaries ≠ [] := by simpa using h
  have hpos : 0 < summaries.length := List.length_pos.mpr hne
  simp only [List.length_drop, CONCURRENCY]
  omega

/-- fetchAllTemplateDetails (ingest-templates.ts lines 271-306): returns
the details gathered together with the shared error list it was handed
(which only the dead rejected branch would ever extend). -/
def fetchAllTemplateDetails (env : DetailEnv) (summaries : List TemplateSearchResult)
    (errors : List String) : List TemplateDetail × List String :=
  (fetchBatches env summaries [], errors)


/-! ### buildFlowDescription -/

/-- The auxiliary AI connection types noted inline (lines 436-443). -/
def aiTypes : List String :=
  ["ai_languageModel", "ai_tool", "ai_memory", "ai_outputParser",
    "ai_vectorStore", "ai_embedding"]

structure WalkState where
  visited : List String
  flowParts : List String
deriving DecidableEq

/-- Sub-node names collected from one node's auxiliary ports (lines
444-463): for every AI connection type present with a nonempty outer
array, the first output array's target node names, in aiTypes order. -/
def collectSubNodes (conn : NodeConnection) : List String :=
  aiTypes.foldl
    (fun acc aiType =>
      match jsGet conn.aux aiType with
      | some (first :: _) => acc ++ first.map (fun t => t.node)
      | _ => acc)
    []

/-- The recursive walk of buildFlowDescription (lines 414-469). The
source bounds the recursion by the visited set and the depth cap
(depth > 10 returns immediately); fuel is only the Lean termination
device: every recursive call raises depth by 1, so with fuel 11 the
fuel-0 branch is unreachable before the depth guard fires. -/
def walk (connections : Connections) : Nat → String → Nat → WalkState → WalkState
  | fuel, nodeName, depth, st =>
    if st.visited.contains nodeName || depth > 10 then st
    else
      match fuel with
      | 0 => st
      | fuel + 1 =>
        let st1 : WalkState :=
          { visited := nodeName :: st.visited, flowParts := st.flowParts ++ [nodeName] }
        match jsGet connections nodeName with
        | none => st1
        | some conn =>
          let st2 :=
            match conn.main with
            | none => st1
            | some outputs =>
              outputs.foldl
                (fun s targets =>
                  targets.foldl
                    (fun s2 t =>
                      if t.node.isEmpty then s2
                      else walk connections fuel t.node (depth + 1) s2)
                    s)
                st1
          let subNodes := collectSubNodes conn
          if subNodes.isEmpty then st2
          else
            { st2 with
              flowParts :=
                st2.flowParts.dropLast ++
                  [nodeName ++ " (sub-nodes: " ++ String.intercalate ", " subNodes ++ ")"] }

/-- The workflow argument of buildFlowDescription (lines 389-392). -/
structure FlowWorkflow where
  nodes : Option (List WorkflowNode) := none
  connections : Option Connections := none

/-- Trigger detection (lines 402-406). -/
def isTriggerNode (n : WorkflowNode) : Bool :=
  strIncludes (lowerStr n.type) "trigger" || strIncludes (lowerStr n.type) "webhook"

/-- buildFlowDescription (ingest-templates.ts lines 389-477). -/
def buildFlowDescription (workflow : FlowWorkflow) : Option String :=
  match workflow.connections, workflow.nodes with
  | some connections, some nodes =>
    match nodes.find? isTriggerNode with
    | none => none
    | some triggerNode =>
      let final := walk connections 11 triggerNode.name 0 ⟨[], []⟩
      if final.flowParts.length > 1 then
        some (String.intercalate " -> " final.flowParts)
      else none
  | _, _ => none

/-- The flowParts list the walk of buildFlowDescription ends with; empty
on the paths where the walk never starts. -/
def flowPartsOf (workflow : FlowWorkflow) : List String :=
  match workflow.connections, workflow.nodes with
  | some connections, some nodes =>
    match nodes.find? isTriggerNode with
    | none => []
    | some triggerNode => (walk connections 11 triggerNode.name 0 ⟨[], []⟩).flowParts
  | _, _ => []

/-! ### buildTemplateRecord -/

/-- A JS truthiness filter on an optional string: null and the empty
string are falsy. -/
def truthyStr : Option String → Option String
  | some s => if s.isEmpty then none else some s
  | none => none

/-- A JS or-chain over optional strings: the first truthy candidate. -/
def jsOrStrs : List (Option String) → Option String
  | [] => none
  | a :: rest =>
    match truthyStr a with
    | some s => some s
    | none => jsOrStrs rest

/-- A JS truthiness filter on an optional number: null and 0 are falsy. -/
def truthyNat : Option Nat → Option Nat
  | some n => if n == 0 then none else some n
  | none => none

/-- a or b or 0 over optional view counts. -/
def jsOrNat (a b : Option Nat) : Nat :=
  match truthyNat a with
  | some n => n
  | none =>
    match truthyNat b with
    | some n => n
    | none => 0

/-- The structural payload stored verbatim on a template record. -/
structure WorkflowJson where
  nodes : List WorkflowNode
  connections : Connections
deriving DecidableEq

/-- TemplateRecord (ingest-templates.ts lines 92-101). -/
structure TemplateRecord where
  templateId : Nat
  name : String
  description : Option String
  category : Option String
  totalViews : Nat
  nodeTypes : List String
  workflowJson : WorkflowJson
  content : String
deriving DecidableEq

/-- buildTemplateRecord (ingest-templates.ts lines 315-383). -/
def buildTemplateRecord (detail : TemplateDetail)
    (summary : Option TemplateSearchResult) : Option TemplateRecord :=
  if detail.workflowNodes.isEmpty then none
  else
    let name := if detail.name.isEmpty then "Template " ++ toString detail.id else detail.name
    let description :=
      jsOrStrs [detail.description, summary.bind (fun s => s.description)]
    let category :=
      jsOrStrs
        [(detail.categories.bind List.head?).map (fun c => c.name),
          (summary.bind (fun s => s.category)).map (fun c => c.name),
          ((summary.bind (fun s => s.categories)).bind List.head?).map (fun c => c.name)]
    let totalViews := jsOrNat detail.totalViews (summary.bind (fun s => s.totalViews))
    let nodeTypes :=
      (detail.workflowNodes.map (fun n => n.type)).filter
        (fun t => !t.isEmpty && !strIncludes t "stickyNote")
    let uniqueNodeTypes := dedupFirst nodeTypes []
    let nodeDisplayNames :=
      ((detail.workflowNodes.filter (fun n => !strIncludes n.type "stickyNote")).map
        (fun n => n.name)).filter (fun s => !s.isEmpty)
    let flowDescription :=
      buildFlowDescription
        { nodes := some detail.workflowNodes, connections := some detail.workflowConnections }
    let contentParts : List String :=
      List.filterMap id
        [some ("Template: " ++ name),
          category.map (fun c => "Category: " ++ c),
          description.map (fun d => "Description: " ++ d),
          some ("Nodes used: " ++ String.intercalate ", " nodeDisplayNames),
          some ("Node types: " ++ String.intercalate ", " uniqueNodeTypes),
          flowDescription.map (fun f => "Flow: " ++ f)]
    let content0 := String.intercalate "\n" contentParts
    let content :=
      if content0.length > MAX_CONTENT_LENGTH then
        sliceTo content0 MAX_CONTENT_LENGTH ++ "\n…[truncated]"
      else content0
    some
      { templateId := detail.id
        name := name
        description := description
        category := category
        totalViews := totalViews
        nodeTypes := uniqueNodeTypes
        workflowJson := { nodes := detail.workflowNodes, connections := detail.workflowConnections }
        content := content }

/-- TemplateSyncResult (ingest-templates.ts lines 103-108), the shape
runTemplateIngestion resolves with. -/
structure TemplateSyncResult where
  success : Bool
  templatesProcessed : Nat
  errors : List String
  duration : Nat
deriving DecidableEq

end Templates

/-! ## The documentation ingestion module (part_003) — origin A -/

namespace Ingest

/-- part_003 line 9: content cap for documentation chunks. -/
def MAX_CONTENT_LENGTH : Nat := 2000

/-! ### Markdown parsing helpers -/

/-- Frontmatter removal (extractMarkdownSection, part_003 line 457): a
leading --- fence, the earliest following --- fence, and one following
newline are stripped when the closing fence exists. -/
def stripFrontmatter (s : String) : String :=
  let cs := s.data
  if ("---".data).isPrefixOf cs then
    match findSub "---".data (cs.drop 3) with
    | some j =>
      let rest := cs.drop (3 + j + 3)
      String.mk
        (match rest with
          | '\n' :: rs => rs
          | _ => rest)
    | none => s
  else s

/-- JS lastIndexOf for one character (none models -1). -/
def lastIndexOfChar (c : Char) : List Char → Option Nat
  | [] => none
  | x :: xs =>
    match lastIndexOfChar c xs with
    | some i => some (i + 1)
    | none => if x == c then some 0 else none

/-- extractMarkdownSection (part_003 lines 451-465): frontmatter
removed, maxLength characters taken from startIndex, then cut after the
last period when that period sits past half the cap, otherwise
trimmed. -/
def extractMarkdownSection (content : String) (startIndex maxLength : Nat) : String :=
  let sect := ((stripFrontmatter content).data.drop startIndex).take maxLength
  match lastIndexOfChar '.' sect with
  | some i => if 2 * i > maxLength then String.mk (sect.take (i + 1)) else String.mk (trimChars sect)
  | none => String.mk (trimChars sect)

/-- First suffix of the text where a level prefix plus one keyword
alternative begins, case-insensitively (the regex engine's left-to-right
position scan). -/
def findHeading (level : String) (keywords : List String) : List Char → Option (List Char)
  | [] => none
  | c :: cs =>
    if keywords.any (fun kw => ciPrefix (level ++ kw).data (c :: cs)) then some (c :: cs)
    else findHeading level keywords cs

/-- One heading-section regex of the extractor family: match from the
first case-insensitive occurrence of level-plus-keyword, span lazily to
the earliest terminator lookahead, cap the result. The source regexes
write the final lookahead alternative as backslash-Z meaning end of
input, which is how a span with no terminator is modeled. -/
def headingSection (level : String) (keywords : List String)
    (terms : List String) (cap : Nat) (content : String) : Option String :=
  match findHeading level keywords content.data with
  | none => none
  | some rest => some (String.mk ((takeUntilAny (terms.map String.data) rest).take cap))

/-- The keyword alternatives of the parameter-section regexes. -/
def paramKeywords : List String :=
  ["Parameters", "Node parameters", "Options", "Fields", "Operations"]

/-- A full table-row line of the fallback regex: starts and ends with a
bar and holds at least three bars. -/
def isTableRow (l : List Char) : Bool :=
  decide (3 ≤ l.count '|') && l.head? == some '|' && l.getLast? == some '|'

/-- Some later line is a full table row followed by a newline (the last
line of the text has no trailing newline and cannot close the match). -/
def hasRowNotLast : List (List Char) → Bool
  | [] => false
  | [_] => false
  | l :: rest => isTableRow l || hasRowNotLast rest

/-- The consecutive run of full table rows, each followed by a newline. -/
def rowRun : List (List Char) → List (List Char)
  | [] => []
  | [_] => []
  | l :: rest => if isTableRow l then l :: rowRun rest else []

/-- Lines before the first full-and-not-last table-row line, and the
lines from it on. -/
def splitAtRow : List (List Char) → List (List Char) × List (List Char)
  | [] => ([], [])
  | [l] => ([l], [])
  | l :: rest =>
    if isTableRow l then ([], l :: rest)
    else
      let p := splitAtRow rest
      (l :: p.1, p.2)

/-- The table-fallback regex of extractParameterSection (part_003 lines
482-488): an opening three-bar fragment, a lazy middle, then one or
more full table-row lines each ending in a newline. The match runs from
the opening fragment's first bar through the consecutive row block and
is capped at 1500. -/
def tableFrom : List (List Char) → Option String
  | [] => none
  | l :: rest =>
    if decide (3 ≤ l.count '|') && hasRowNotLast rest then
      let opening := l.dropWhile (fun c => c != '|')
      let p := splitAtRow rest
      some (String.mk ((List.intercalate ['\n'] (opening :: (p.1 ++ rowRun p.2)) ++ ['\n']).take 1500))
    else tableFrom rest

/-- extractParameterSection (part_003 lines 467-490). -/
def extractParameterSection (content : String) : Option String :=
  match headingSection "## " paramKeywords ["\n## ", "\n---"] 2000 content with
  | some s => some s
  | none =>
    match headingSection "### " paramKeywords ["\n### ", "\n## ", "\n---"] 2000 content with
    | some s => some s
    | none => tableFrom (splitOnChar '\n' content.data)

/-- extractCredentialSection (part_003 lines 492-506). -/
def extractCredentialSection (content : String) : Option String :=
  match headingSection "## " ["Credentials", "Authentication", "Prerequisites"]
      ["\n## ", "\n---"] 1000 content with
  | some s => some s
  | none =>
    headingSection "### " ["Credentials", "Authentication", "Prerequisites"]
      ["\n### ", "\n## ", "\n---"] 1000 content

/-- A fence of three backticks. -/
def fence : List Char := List.replicate 3 (Char.ofNat 96)

/-- The global fenced-code-block matches, fuel-indexed for structural
termination (fuel at least the text length always suffices: every match
consumes the six fence characters). -/
def codeBlocksF : Nat → List Char → List (List Char)
  | 0, _ => []
  | fuel + 1, cs =>
    match findSub fence cs with
    | none => []
    | some i =>
      let after := cs.drop (i + 3)
      match findSub fence after with
      | none => []
      | some j => (fence ++ after.take j ++ fence) :: codeBlocksF fuel (after.drop (j + 3))

/-- All fenced code blocks of the text, in order (the regex match with
the global flag at part_003 line 522). -/
def codeBlocks (cs : List Char) : List (List Char) := codeBlocksF cs.length cs

/-- extractExamplesSection (part_003 lines 508-528); the keyword
Example covers the regex's optional plural. -/
def extractExamplesSection (content : String) : Option String :=
  match headingSection "## " ["Example", "Templates", "Common operations", "Usage"]
      ["\n## ", "\n---"] 1500 content with
  | some s => some s
  | none =>
    match headingSection "### " ["Example", "Templates", "Common operations", "Usage"]
        ["\n### ", "\n## ", "\n---"] 1500 content with
    | some s => some s
    | none =>
      match codeBlocks content.data with
      | [] => none
      | bs => some (sliceTo (String.intercalate "\n\n" ((bs.take 3).map String.mk)) 1500)

/-! ### Chunk building -/

/-- The chunkType enumeration of NodeDocChunk (part_003 line 28). -/
inductive ChunkType where
  | overview
  | parameters
  | credentials
  | examples
deriving DecidableEq

def ChunkType.toStr : ChunkType → String
  | .overview => "overview"
  | .parameters => "parameters"
  | .credentials => "credentials"
  | .examples => "examples"

/-- The metadata object of a chunk (part_003 lines 30-35); the
operations field is never set by the pipeline. -/
structure ChunkMetadata where
  category : String
  credentialTypes : Option (List String) := none
deriving DecidableEq

/-- NodeDocChunk (part_003 lines 24-36). -/
structure NodeDocChunk where
  nodeType : String
  displayName : String
  typeVersion : ℚ
  chunkType : ChunkType
  content : String
  metadata : ChunkMetadata
deriving DecidableEq

/-- NodeSourceInfo (part_003 lines 44-52). -/
structure NodeSourceInfo where
  nodeType : String
  displayName : String
  defaultVersion : ℚ
  description : String
  category : String
  credentials : List String
  properties : String
deriving DecidableEq

/-- JS template-literal rendering of the version numbers interpolated
into chunk text: integral values render exactly; a fractional value is
rendered as num/den (no property proved here reads such a rendering). -/
def jsNumToString (q : ℚ) : String :=
  if q.den = 1 then toString q.num else toString q.num ++ "/" ++ toString q.den

/-- nodeType.split(".").pop() with the source's ?? "Unknown" fallback. -/
def lastComponent (s : String) : String :=
  match (splitOnChar '.' s.data).getLast? with
  | some l => String.mk l
  | none => "Unknown"

/-- createNodeChunks (part_003 lines 330-447): combines doc text and
parsed source info into one overview chunk plus optional parameters,
credentials and examples chunks, in push order. JS truthiness guards
are modeled exactly: a null doc text and an empty-string doc text are
both falsy, as are empty properties, empty credential lists and empty
extraction results. -/
def createNodeChunks (nodeType : String) (docContent : Option String)
    (sourceInfo : Option NodeSourceInfo) : List NodeDocChunk :=
  let displayName :=
    match sourceInfo with
    | some si => si.displayName
    | none => lastComponent nodeType
  let typeVersion : ℚ :=
    match sourceInfo with
    | some si => si.defaultVersion
    | none => 1
  let category :=
    match sourceInfo with
    | some si => si.category
    | none => "action"
  let docTruthy :=
    match docContent with
    | some d => !d.isEmpty
    | none => false
  -- 1. Overview chunk (always pushed)
  let overviewParts : List String :=
    ["Node: " ++ displayName, "Type: " ++ nodeType,
      "Latest Version: " ++ jsNumToString typeVersion, "Category: " ++ category] ++
    (match sourceInfo with
      | some si => if si.description.isEmpty then [] else ["Description: " ++ si.description]
      | none => []) ++
    (match sourceInfo with
      | some si =>
        if si.credentials.isEmpty then []
        else ["Required Credentials: " ++ String.intercalate ", " si.credentials]
      | none => []) ++
    (match docContent with
      | some d =>
        if d.isEmpty then []
        else
          let firstSection := extractMarkdownSection d 0 500
          if firstSection.isEmpty then [] else ["\nDocumentation:\n" ++ firstSection]
      | none => [])
  let overviewChunk : NodeDocChunk :=
    { nodeType := nodeType, displayName := displayName, typeVersion := typeVersion,
      chunkType := .overview, content := String.intercalate "\n" overviewParts,
      metadata :=
        { category := category, credentialTypes := sourceInfo.map (fun si => si.credentials) } }
  -- 2. Parameters chunk (pushed whenever the guard holds)
  let hasProps :=
    match sourceInfo with
    | some si => !si.properties.isEmpty
    | none => false
  let paramChunks : List NodeDocChunk :=
    if hasProps || docTruthy then
      let paramParts : List String :=
        ["Parameters for " ++ displayName ++ " (" ++ nodeType ++ ") v" ++
          jsNumToString typeVersion ++ ":"] ++
        (match sourceInfo with
          | some si =>
            if si.properties.isEmpty then [] else ["\nSource parameters:\n" ++ si.properties]
          | none => []) ++
        (match docContent with
          | some d =>
            if d.isEmpty then []
            else
              match extractParameterSection d with
              | some ps => ["\nDocumented parameters:\n" ++ ps]
              | none => []
          | none => [])
      [{ nodeType := nodeType, displayName := displayName, typeVersion := typeVersion,
          chunkType := .parameters, content := String.intercalate "\n" paramParts,
          metadata := { category := category } }]
    else []
  -- 3. Credentials chunk (guard, then only when a part beyond the header exists)
  let hasCreds :=
    match sourceInfo with
    | some si => !si.credentials.isEmpty
    | none => false
  let credChunks : List NodeDocChunk :=
    if hasCreds || docTruthy then
      let credParts : List String :=
        ["Credentials for " ++ displayName ++ " (" ++ nodeType ++ "):"] ++
        (match sourceInfo with
          | some si =>
            if si.credentials.isEmpty then []
            else ["Credential types: " ++ String.intercalate ", " si.credentials]
          | none => []) ++
        (match docContent with
          | some d =>
            if d.isEmpty then []
            else
              match extractCredentialSection d with
              | some cs => ["\n" ++ cs]
              | none => []
          | none => [])
      if credParts.length > 1 then
        [{ nodeType := nodeType, displayName := displayName, typeVersion := typeVersion,
            chunkType := .credentials, content := String.intercalate "\n" credParts,
            metadata :=
              { category := category,
                credentialTypes := sourceInfo.map (fun si => si.credentials) } }]
      else []
    else []
  -- 4. Examples chunk (from docs)
  let exampleChunks : List NodeDocChunk :=
    match docContent with
    | some d =>
      if d.isEmpty then []
      else
        match extractExamplesSection d with
        | some es =>
          [{ nodeType := nodeType, displayName := displayName, typeVersion := typeVersion,
              chunkType := .examples,
              content :=
                "Examples for " ++ displayName ++ " (" ++ nodeType ++ ") v" ++
                  jsNumToString typeVersion ++ ":\n" ++ es,
              metadata := { category := category } }]
        | none => []
    | none => []
  [overviewChunk] ++ paramChunks ++ credChunks ++ exampleChunks

/-! ### Version extraction of parseNodeSource (part_003 lines 191-215)

The two regex matches feeding the defaultVersion selection are
implemented as left-to-right position scanners with the source's exact
pattern shapes. -/

/-- The numeric capture digits(.digits)? , greedy, needing a digit; a
dot not followed by a digit is left unconsumed. -/
def readNumCapture (cs : List Char) : Option (List Char) :=
  let intPart := cs.takeWhile Char.isDigit
  if intPart.isEmpty then none
  else
    match cs.drop intPart.length with
    | '.' :: rs =>
      let frac := rs.takeWhile Char.isDigit
      if frac.isEmpty then some intPart else some (intPart ++ '.' :: frac)
    | _ => some intPart

/-- key then \s* then : or = then \s* then the numeric capture, anchored
at the front of cs. -/
def tryKeyNum (key : List Char) (cs : List Char) : Option (List Char) :=
  if key.isPrefixOf cs then
    match (cs.drop key.length).dropWhile isWsChar with
    | c :: r =>
      if c == ':' || c == '=' then readNumCapture (r.dropWhile isWsChar) else none
    | [] => none
  else none

/-- First match of key\s*[:=]\s*(digits capture) anywhere in the text. -/
def scanKeyNum (key : List Char) : List Char → Option (List Char)
  | [] => none
  | c :: cs => (tryKeyNum key (c :: cs)).orElse (fun _ => scanKeyNum key cs)

/-- The capture of the defaultVersion regex (part_003 lines 192-194). -/
def matchDefaultVersion (content : String) : Option String :=
  (scanKeyNum "defaultVersion".data content.data).map String.mk

/-- The capture of the version regex (part_003 lines 195-197): a
bracketed list of digits, commas, whitespace and dots, or a plain
number. -/
inductive VersionCapture where
  | arr (raw : String)
  | scalar (raw : String)
deriving DecidableEq

/-- The character class of the bracketed version-list alternative. -/
def isVerClassChar (c : Char) : Bool :=
  c.isDigit || c == ',' || isWsChar c || c == '.'

/-- The capture alternation, anchored at the front of cs: the bracketed
alternative first, the plain number otherwise (when cs opens a bracket
that never closes over class characters, the number alternative cannot
match there either, so the position fails). -/
def readVersionCapture (cs : List Char) : Option VersionCapture :=
  match cs with
  | '[' :: rs =>
    let inner := rs.takeWhile isVerClassChar
    if inner.isEmpty then none
    else
      match rs.drop inner.length with
      | ']' :: _ => some (.arr (String.mk ('[' :: (inner ++ [']']))))
      | _ => none
  | _ => (readNumCapture cs).map (fun d => .scalar (String.mk d))

/-- version then \s* then : or = then \s* then the capture, anchored. -/
def tryVersion (cs : List Char) : Option VersionCapture :=
  if ("version".data).isPrefixOf cs then
    match (cs.drop 7).dropWhile isWsChar with
    | c :: r =>
      if c == ':' || c == '=' then readVersionCapture (r.dropWhile isWsChar) else none
    | [] => none
  else none

/-- First match of the version regex anywhere in the text (an occurrence
inside the word defaultVersion counts, as it does for the JS regex). -/
def matchVersion (content : String) : Option VersionCapture :=
  let rec go : List Char → Option VersionCapture
    | [] => none
    | c :: cs => (tryVersion (c :: cs)).orElse (fun _ => go cs)
  go content.data

/-- vStr.replace of all brackets (part_003 line 207). -/
def stripBrackets (s : String) : String :=
  String.mk (s.data.filter (fun c => c != '[' && c != ']'))

/-- The version-list parse of the array branch (part_003 lines 206-210):
split on commas, trim, parseFloat, drop the NaNs. -/
def parseVersionList (raw : String) : List ℚ :=
  ((splitOnChar ',' (stripBrackets raw).data).map (fun piece => parseFloatQ (trimChars piece))).filterMap id

/-- The defaultVersion selection of parseNodeSource (part_003 lines
199-215): the defaultVersion capture when present; otherwise the array
branch takes Math.max over the parsed entries and 1; otherwise the
scalar branch takes parseFloat-or-1 (a zero scalar is falsy); otherwise
the initial 1 stands. -/
def extractDefaultVersion (content : String) : ℚ :=
  match matchDefaultVersion content with
  | some cap => (parseFloatQ cap.data).getD 1
  | none =>
    match matchVersion content with
    | some (.arr raw) => (parseVersionList raw).foldr max 1
    | some (.scalar raw) =>
      match parseFloatQ raw.data with
      | some q => if q == 0 then 1 else q
      | none => 1
    | none => 1

/-- The version-selection rule exactly as the specification words it:
the explicit default-version field when present; otherwise, when an
enumerated version list is present, the maximum of that list (of its
parsable entries; 1 when none parses); otherwise 1. Stated for
comparison with extractDefaultVersion. -/
def specVersionOf (content : String) : ℚ :=
  match matchDefaultVersion content with
  | some cap => (parseFloatQ cap.data).getD 1
  | none =>
    match matchVersion content with
    | some (.arr raw) => (listMax (parseVersionList raw)).getD 1
    | _ => 1

/-! ### The overall ingestion run (runIngestion, part_003 lines 549-734) -/

/-- SyncResult (part_003 lines 532-539); duration is wall-clock time,
not modeled, and carried as 0. -/
structure SyncResult where
  success : Bool
  nodesProcessed : Nat
  chunksCreated : Nat
  templatesProcessed : Nat
  errors : List String
  duration : Nat
deriving DecidableEq

/-- One sync_log row as logSync (part_003 lines 736-759) writes it. -/
structure SyncLogEntry where
  source : String
  status : String
  nodesProcessed : Nat
  error : Option String
deriving DecidableEq

/-- One row of the node_docs table as the upsert loop stores it (the
key fields and the content; the vector and metadata payloads carry no
property claimed here). -/
structure StoredDoc where
  nodeType : String
  chunkType : ChunkType
  content : String
deriving DecidableEq

/-- The effectful collaborators of one runIngestion execution: each
fallible call's outcome. The two fetchers resolve to maps (their own
internal catches make them total); generateEmbeddings, getRawSql and
getDbUnpooled may throw to the outer catch; each per-chunk upsert try
block may throw without aborting the loop; runTemplateIngestion
resolves with a TemplateSyncResult or throws. -/
structure IngestEnv where
  docsFetch : Outcome (List (String × String))
  sourceFetch : Outcome (List (String × NodeSourceInfo))
  embed : List String → Outcome (List (List ℚ))
  rawSql : Outcome Unit
  db : Outcome Unit
  upsert : Nat → Outcome Unit
  templateRun : Outcome Templates.TemplateSyncResult

/-- What one execution leaves behind: the returned SyncResult, the
sync-log rows written, whether runTemplateIngestion was invoked, and
the node_docs rows stored. -/
structure RunOutput where
  result : SyncResult
  log : List SyncLogEntry
  templateInvoked : Bool
  storedDocs : List StoredDoc

/-- The docs map after the caught fetch (lines 562-565): empty on a
thrown fetch. -/
def mapOfDocs (df : Outcome (List (String × String))) : List (String × String) :=
  match df with
  | .ok m => m
  | .thrown _ => []

/-- The source map after the caught fetch (lines 566-569). -/
def mapOfSource (sf : Outcome (List (String × NodeSourceInfo))) :
    List (String × NodeSourceInfo) :=
  match sf with
  | .ok m => m
  | .thrown _ => []

/-- The errors the two catch handlers of the parallel fetch push; their
completion order is not modeled, docs first (neither claim below reads
this order). -/
def fetchErrors (df : Outcome (List (String × String)))
    (sf : Outcome (List (String × NodeSourceInfo))) : List String :=
  (match df with
    | .ok _ => []
    | .thrown m => ["Docs fetch failed: " ++ m]) ++
  (match sf with
    | .ok _ => []
    | .thrown m => ["Source fetch failed: " ++ m])

/-- The docs map of one run, read off the environment. -/
def docsMapOf (env : IngestEnv) : List (String × String) :=
  mapOfDocs env.docsFetch

/-- The source map of one run, read off the environment. -/
def sourceMapOf (env : IngestEnv) : List (String × NodeSourceInfo) :=
  mapOfSource env.sourceFetch

/-- new Set([...docsMap.keys(), ...sourceMap.keys()]) (line 577). -/
def nodeTypesFrom (docsMap : List (String × String))
    (sourceMap : List (String × NodeSourceInfo)) : List String :=
  dedupFirst (docsMap.map Prod.fst ++ sourceMap.map Prod.fst) []

/-- The chunk accumulation loop (lines 581-588). -/
def allChunksFrom (docsMap : List (String × String))
    (sourceMap : List (String × NodeSourceInfo)) : List NodeDocChunk :=
  (nodeTypesFrom docsMap sourceMap).flatMap
    (fun nt => createNodeChunks nt (jsGet docsMap nt) (jsGet sourceMap nt))

/-- The chunks of one run, read off the environment. -/
def allChunksOf (env : IngestEnv) : List NodeDocChunk :=
  allChunksFrom (docsMapOf env) (sourceMapOf env)

/-- The content truncation of the doc upsert path (lines 639-643). -/
def truncateContent (content : String) : String :=
  if content.length > MAX_CONTENT_LENGTH then
    sliceTo content MAX_CONTENT_LENGTH ++ "\n…[truncated]"
  else content

/-- Error-message truncation of the per-chunk catch (lines 663-667). -/
def shortErr (m : String) : String :=
  if m.length > 200 then sliceTo m 200 ++ "…" else m

/-- logSync's entry construction (lines 736-759): the error text is
truncated at 500; the write's own store failure is swallowed there and
observes nothing, so the append itself is recorded. -/
def mkSyncLog (source status : String) (nodesProcessed : Nat) (error : Option String) :
    SyncLogEntry :=
  { source := source, status := status, nodesProcessed := nodesProcessed,
    error := error.map (fun e => if e.length > 500 then sliceTo e 500 ++ "…[truncated]" else e) }

def joinSemi (errs : List String) : String := String.intercalate "; " errs

/-- The per-chunk upsert loop (lines 620-677), flattened over its
UPSERT_BATCH grouping: slicing into batches of 50 only regroups the
same per-chunk iterations (batchChunks[j] with batchEmbeddings[j] is
allChunks[i+j] with embeddings[i+j]), so the loop is modeled one chunk
at a time. Each iteration's try block — delete, truncate, insert —
either succeeds (one stored row, counter up) or throws, appending a
truncated diagnostic and continuing. Returns (chunksCreated, errors
appended, rows stored). -/
def upsertChunks (upsert : Nat → Outcome Unit) :
    List NodeDocChunk → Nat → Nat × List String × List StoredDoc
  | [], _ => (0, [], [])
  | chunk :: rest, idx =>
    let tail := upsertChunks upsert rest (idx + 1)
    match upsert idx with
    | .ok _ =>
      (tail.1 + 1, tail.2.1,
        { nodeType := chunk.nodeType, chunkType := chunk.chunkType,
          content := truncateContent chunk.content } :: tail.2.2)
    | .thrown m =>
      (tail.1,
        ("Upsert failed for " ++ chunk.nodeType ++ "/" ++ chunk.chunkType.toStr ++ ": " ++
          shortErr m) :: tail.2.1,
        tail.2.2)

/-- The tail of both completion paths (lines 692-718): the template
sub-run is invoked inside its own try, its outcome merged into the
error list, and the SyncResult assembled with success exactly
errors.length = 0. -/
def finishWithTemplates (env : IngestEnv) (errs : List String)
    (nodesProcessed chunksCreated : Nat) (stored : List StoredDoc)
    (log : List SyncLogEntry) : RunOutput :=
  match env.templateRun with
  | .ok tr =>
    let errs2 := errs ++ (tr.errors.take 5).map (fun e => "[templates] " ++ e)
    { result :=
        { success := errs2.isEmpty, nodesProcessed := nodesProcessed,
          chunksCreated := chunksCreated, templatesProcessed := tr.templatesProcessed,
          errors := errs2, duration := 0 },
      log := log, templateInvoked := true, storedDocs := stored }
  | .thrown m =>
    let errs2 := errs ++ ["Template ingestion failed: " ++ m]
    { result :=
        { success := errs2.isEmpty, nodesProcessed := nodesProcessed,
          chunksCreated := chunksCreated, templatesProcessed := 0,
          errors := errs2, duration := 0 },
      log := log, templateInvoked := true, storedDocs := stored }

/-- The outer catch (lines 719-733), reachable only from the embedding
and store-setup throws, all of which precede any stored row: the thrown
message joins the error list, an error entry is logged, success is
false and the template sub-run was never reached. -/
def outerCatch (errs : List String) (nodesProcessed : Nat) (m : String) : RunOutput :=
  { result :=
      { success := false, nodesProcessed := nodesProcessed, chunksCreated := 0,
        templatesProcessed := 0, errors := errs ++ [m], duration := 0 },
    log := [mkSyncLog "github-docs" "error" nodesProcessed (some m)],
    templateInvoked := false, storedDocs := [] }

/-- The state the doc phase of runIngestion hands to the template block
or to the outer catch: caught holds the message when one of the three
uncaught throw points fired. -/
structure DocPhase where
  errs : List String
  nodesProcessed : Nat
  chunksCreated : Nat
  stored : List StoredDoc
  log : List SyncLogEntry
  caught : Option String

/-- The doc-ingestion phase of runIngestion (part_003 lines 556-690),
as a function of the collaborators it reads (the template sub-run is
not one of them): caught fetches feed empty maps, an empty chunk set
logs an error and continues, and the embedding call, getRawSql and
getDbUnpooled are the throw points reaching the outer catch. -/
def docPhase (docsFetch : Outcome (List (String × String)))
    (sourceFetch : Outcome (List (String × NodeSourceInfo)))
    (embed : List String → Outcome (List (List ℚ)))
    (rawSql db : Outcome Unit) (upsert : Nat → Outcome Unit) : DocPhase :=
  let docsMap := mapOfDocs docsFetch
  let sourceMap := mapOfSource sourceFetch
  let errs0 := fetchErrors docsFetch sourceFetch
  let allChunks := allChunksFrom docsMap sourceMap
  let nodesProcessed := (nodeTypesFrom docsMap sourceMap).length
  if allChunks.isEmpty then
    let errs1 := errs0 ++ ["No chunks generated — check GitHub API access"]
    { errs := errs1, nodesProcessed := nodesProcessed, chunksCreated := 0, stored := [],
      log := [mkSyncLog "github-docs" "error" 0 (some (joinSemi errs1))], caught := none }
  else
    match embed (allChunks.map (fun c => c.content)) with
    | .thrown m =>
      { errs := errs0, nodesProcessed := nodesProcessed, chunksCreated := 0, stored := [],
        log := [], caught := some m }
    | .ok _ =>
      match rawSql with
      | .thrown m =>
        { errs := errs0, nodesProcessed := nodesProcessed, chunksCreated := 0, stored := [],
          log := [], caught := some m }
      | .ok _ =>
        match db with
        | .thrown m =>
          { errs := errs0, nodesProcessed := nodesProcessed, chunksCreated := 0, stored := [],
            log := [], caught := some m }
        | .ok _ =>
          let r := upsertChunks upsert allChunks 0
          let errs2 := errs0 ++ r.2.1
          { errs := errs2, nodesProcessed := nodesProcessed, chunksCreated := r.1,
            stored := r.2.2,
            log :=
              [mkSyncLog "github-docs" (if errs2.isEmpty then "success" else "error")
                nodesProcessed
                (if errs2.isEmpty then none else some (joinSemi (errs2.take 5)))],
            caught := none }

/-- runIngestion (part_003 lines 549-734): the doc phase, then either
the outer catch (which skips the template block) or the template block
and the structured return. -/
def runIngestion (env : IngestEnv) : RunOutput :=
  let ph := docPhase env.docsFetch env.sourceFetch env.embed env.rawSql env.db env.upsert
  match ph.caught with
  | some m => outerCatch ph.errs ph.nodesProcessed m
  | none => finishWithTemplates env ph.errs ph.nodesProcessed ph.chunksCreated ph.stored ph.log

end Ingest

/-! ## Concrete inputs used by the closed theorems below -/

namespace Examples

/-- An all-ok template sub-run outcome. -/
def okTemplates : Templates.TemplateSyncResult :=
  { success := true, templatesProcessed := 3, errors := [], duration := 0 }

/-- A properties summary that alone exceeds the doc content cap. -/
def bigProperties : String := String.mk (List.replicate 2500 'p')

/-- Parsed source info carrying the oversized properties summary. -/
def bigSourceInfo : Ingest.NodeSourceInfo :=
  { nodeType := "n8n-nodes-base.big", displayName := "Big", defaultVersion := 1,
    description := "", category := "action", credentials := [], properties := bigProperties }

/-- A run whose fetches, embedding and upserts all succeed, with one
source entry whose parameters chunk exceeds the content cap. -/
def envBigChunk : Ingest.IngestEnv :=
  { docsFetch := .ok [], sourceFetch := .ok [("n8n-nodes-base.big", bigSourceInfo)],
    embed := fun texts => .ok (texts.map (fun _ => [1])), rawSql := .ok (), db := .ok (),
    upsert := fun _ => .ok (), templateRun := .ok okTemplates }

/-- A run in which the fetches succeed (one doc) and the embedding call
throws. -/
def envEmbedThrows : Ingest.IngestEnv :=
  { docsFetch := .ok [("n8n-nodes-base.foo", "hello")], sourceFetch := .ok [],
    embed := fun _ => .thrown "embedding provider unavailable", rawSql := .ok (),
    db := .ok (), upsert := fun _ => .ok (), templateRun := .ok okTemplates }

/-- A healthy detail body for template 2. -/
def detailBody2 : Templates.OuterWorkflow :=
  { id := some 2, name := some "Two",
    workflow :=
      some { nodes := some [{ name := "A", type := "manualTrigger" }], connections := some [] } }

/-- A detail endpoint that throws HTTP 500 for template 1 and succeeds
for template 2. -/
def envDetail : Templates.DetailEnv :=
  { detail := fun id =>
      if id == 1 then .thrown "HTTP 500 fetching template 1" else .ok (some detailBody2) }

def summary1 : Templates.TemplateSearchResult := { id := 1, name := "One" }

def summary2 : Templates.TemplateSearchResult := { id := 2, name := "Two" }

/-- A workflow whose two nodes connect in a cycle, the first one
trigger-like. -/
def cyclicWorkflow : Templates.FlowWorkflow :=
  { nodes := some [{ name := "A", type := "manualTrigger" }, { name := "B", type := "set" }],
    connections :=
      some [("A", { main := some [[{ node := "B" }]] }),
        ("B", { main := some [[{ node := "A" }]] })] }

/-- A two-node template detail with one connection. -/
def detailC10 : Templates.TemplateDetail :=
  { id := 7, name := "Seven",
    workflowNodes := [{ name := "A", type := "manualTrigger" }, { name := "B", type := "set" }],
    workflowConnections := [("A", { main := some [[{ node := "B" }]] })] }

/-- The record buildTemplateRecord builds from detailC10 (the fallback
arm is unreachable: the detail has nodes). -/
def recC10 : Templates.TemplateRecord :=
  match Templates.buildTemplateRecord detailC10 none with
  | some r => r
  | none =>
    { templateId := 0, name := "", description := none, category := none, totalViews := 0,
      nodeTypes := [], workflowJson := { nodes := [], connections := [] }, content := "" }

end Examples

/-! # Theorems -/

namespace Embedding

/-- Batching helper fact: generateEmbeddings agrees with the plain
elementwise map of the provider over the whole input list. -/
theorem generateEmbeddings_eq_map (provider : String → List ℚ) :
    ∀ texts, generateEmbeddings provider texts = texts.map provider := by
  have aux : ∀ n texts, List.length texts ≤ n →
      generateEmbeddings provider texts = texts.map provider := by
    intro n
    induction n with
    | zero =>
      intro texts h
      have hnil : texts = [] := List.length_eq_zero.mp (Nat.le_zero.mp h)
      subst hnil
      rw [generateEmbeddings]
      simp
    | succ n ih =>
      intro texts h
      rw [generateEmbeddings]
      split
      · next he => simp [List.isEmpty_iff.mp he]
      · next he =>
        have hne : texts ≠ [] := by simpa [List.isEmpty_iff] using he
        have hpos : 0 < texts.length := List.length_pos.mpr hne
        have hle : (texts.drop BATCH_SIZE).length ≤ n := by
          simp only [List.length_drop, BATCH_SIZE]
          omega
        rw [ih _ hle, embedMany, ← List.map_append, List.take_append_drop]
  intro texts
  exact aux texts.length texts le_rfl

end Embedding

namespace Templates

theorem insertSummaries_eq (ts : List TemplateSearchResult) :
    ∀ acc seen, insertSummaries ts acc seen =
      (acc ++ dedupById seen ts, seenAfter seen ts) := by
  induction ts with
  | nil => intro acc seen; simp [insertSummaries, dedupById, seenAfter]
  | cons t ts ih =>
    intro acc seen
    by_cases hm : t.id ∈ seen
    · simp [insertSummaries, dedupById, seenAfter, hm, ih]
    · simp [insertSummaries, dedupById, seenAfter, hm, ih]

theorem dedupById_append (ts us : List TemplateSearchResult) :
    ∀ seen, dedupById seen (ts ++ us) =
      dedupById seen ts ++ dedupById (seenAfter seen ts) us := by
  induction ts with
  | nil => intro seen; simp [dedupById, seenAfter]
  | cons t ts ih =>
    intro seen
    by_cases hm : t.id ∈ seen
    · simp [dedupById, seenAfter, hm, ih]
    · simp [dedupById, seenAfter, hm, ih]

theorem seenAfter_append (ts us : List TemplateSearchResult) :
    ∀ seen, seenAfter seen (ts ++ us) = seenAfter (seenAfter seen ts) us := by
  induction ts with
  | nil => intro seen; simp [seenAfter]
  | cons t ts ih =>
    intro seen
    by_cases hm : t.id ∈ seen
    · simp [seenAfter, hm, ih]
    · simp [seenAfter, hm, ih]

theorem collectPages_eq (fetch : Nat → PageResult) (ps : List Nat) :
    ∀ acc seen, collectPages fetch ps acc seen =
      (acc ++ dedupById seen (phaseStream fetch ps),
        seenAfter seen (phaseStream fetch ps)) := by
  induction ps with
  | nil => intro acc seen; simp [collectPages, phaseStream, dedupById, seenAfter]
  | cons p ps ih =>
    intro acc seen
    match hf : fetch p with
    | .thrown m => simp [collectPages, phaseStream, hf, dedupById, seenAfter]
    | .page ws =>
      by_cases hw : ws.isEmpty
      · simp [collectPages, phaseStream, hf, hw, dedupById, seenAfter]
      · simp only [collectPages, phaseStream, hf, hw, if_false, insertSummaries_eq, ih,
          dedupById_append, seenAfter_append, List.append_assoc, Bool.false_eq_true]

/-- Everything dedupById keeps has an id outside the seen set. -/
theorem dedupById_mem_not_seen (ts : List TemplateSearchResult) :
    ∀ seen t, t ∈ dedupById seen ts → t.id ∉ seen := by
  induction ts with
  | nil => intro seen t h; simp [dedupById] at h
  | cons u ts ih =>
    intro seen t h
    by_cases hm : u.id ∈ seen
    · rw [dedupById, if_pos hm] at h
      exact ih seen t h
    · rw [dedupById, if_neg hm] at h
      rcases List.mem_cons.mp h with h | h
      · subst h; exact hm
      · intro hc
        exact (ih _ t h) (List.mem_cons_of_mem _ hc)

/-- The ids dedupById keeps are pairwise distinct. -/
theorem dedupById_nodup (ts : List TemplateSearchResult) :
    ∀ seen, ((dedupById seen ts).map (fun t => t.id)).Nodup := by
  induction ts with
  | nil => intro seen; simp [dedupById]
  | cons u ts ih =>
    intro seen
    by_cases hm : u.id ∈ seen
    · rw [dedupById, if_pos hm]; exact ih seen
    · rw [dedupById, if_neg hm]
      refine List.nodup_cons.mpr ⟨?_, ih _⟩
      intro hc
      rcases List.mem_map.mp hc with ⟨t, ht, hid⟩
      exact dedupById_mem_not_seen ts _ t ht (hid ▸ List.mem_cons_self _ _)

theorem foldBatch_eq (env : DetailEnv) (ss : List TemplateSearchResult) :
    ∀ details, foldBatch env ss details =
      details ++ ss.filterMap (fun s => fetchTemplateDetail env s.id) := by
  induction ss with
  | nil => intro details; simp [foldBatch]
  | cons s ss ih =>
    intro details
    match hd : fetchTemplateDetail env s.id with
    | some d => simp [foldBatch, hd, ih]
    | none => simp [foldBatch, hd, ih]

theorem fetchBatches_eq (env : DetailEnv) :
    ∀ summaries details, fetchBatches env summaries details =
      details ++ summaries.filterMap (fun s => fetchTemplateDetail env s.id) := by
  have aux : ∀ n summaries details, List.length summaries ≤ n →
      fetchBatches env summaries details =
        details ++ summaries.filterMap (fun s => fetchTemplateDetail env s.id) := by
    intro n
    induction n with
    | zero =>
      intro summaries details h
      have hnil : summaries = [] := List.length_eq_zero.mp (Nat.le_zero.mp h)
      subst hnil
      rw [fetchBatches]
      simp
    | succ n ih =>
      intro summaries details h
      rw [fetchBatches]
      split
      · next he => simp [List.isEmpty_iff.mp he]
      · next he =>
        have hne : summaries ≠ [] := by simpa [List.isEmpty_iff] using he
        have hpos : 0 < summaries.length := List.length_pos.mpr hne
        have hle : (summaries.drop CONCURRENCY).length ≤ n := by
          simp only [List.length_drop, CONCURRENCY]
          omega
        rw [ih _ _ hle, foldBatch_eq, List.append_assoc, ← List.filterMap_append,
          List.take_append_drop]
  intro summaries details
  exact aux summaries.length summaries details le_rfl

/-- The per-template fetch/carry behavior of fetchAllTemplateDetails:
every summary gets exactly one fetchTemplateDetail call, the non-null
results are kept in order, and the shared error list comes back exactly
as it went in. -/
theorem fetchAllTemplateDetails_spec (env : DetailEnv)
    (summaries : List TemplateSearchResult) (errors : List String) :
    fetchAllTemplateDetails env summaries errors =
      (summaries.filterMap (fun s => fetchTemplateDetail env s.id), errors) := by
  rw [fetchAllTemplateDetails, fetchBatches_eq]
  simp

end Templates

/-! ## Claim theorems -/

/-- C8: for every ordered list of input texts, generateEmbeddings
returns a list of equal length whose i-th element is the embedding of
the i-th input text — it equals the elementwise map of the single-text
embedder — despite the internal splitting into batches of 512. -/
theorem claimC8_embedding_order (provider : String → List ℚ) (texts : List String) :
    Embedding.generateEmbeddings provider texts =
        texts.map (Embedding.generateEmbedding provider) ∧
      (Embedding.generateEmbeddings provider texts).length = texts.length := by
  have h := Embedding.generateEmbeddings_eq_map provider texts
  refine ⟨h, ?_⟩
  rw [h, List.length_map]

/-- C4: the summary list fetchTemplateList produces is exactly the
first-occurrence-wins dedup by template id of the pages the two phases
deliver (AI phase before general phase, earlier page before later), so
each template id occurs at most once; fetchAllTemplateDetails then
issues exactly one detail fetch per list entry
(fetchAllTemplateDetails_spec), hence at most one per id. -/
theorem claimC4_dedup_across_phases (env : Templates.SearchEnv) :
    Templates.fetchTemplateList env =
        Templates.dedupById []
          (Templates.phaseStream env.aiPage [1, 2, 3, 4] ++
            Templates.phaseStream env.generalPage [1, 2]) ∧
      ((Templates.fetchTemplateList env).map (fun t => t.id)).Nodup ∧
      ∀ i : Nat, ((Templates.fetchTemplateList env).map (fun t => t.id)).count i ≤ 1 := by
  have heq : Templates.fetchTemplateList env =
      Templates.dedupById []
        (Templates.phaseStream env.aiPage [1, 2, 3, 4] ++
          Templates.phaseStream env.generalPage [1, 2]) := by
    rw [Templates.fetchTemplateList]
    rw [Templates.collectPages_eq, Templates.collectPages_eq]
    simp [Templates.dedupById_append]
  have hnodup : ((Templates.fetchTemplateList env).map (fun t => t.id)).Nodup := by
    rw [heq]
    exact Templates.dedupById_nodup _ _
  exact ⟨heq, hnodup, fun i => List.nodup_iff_count_le_one.mp hnodup i⟩

/-- C5 counterexample: with a detail endpoint that returns HTTP 500 for
template 1 and succeeds for template 2, the batch continues past the
failure (template 2 is fetched and kept) but no diagnostic is appended
to the shared error list — it comes back empty — refuting the claim's
appended-diagnostic half at this input. fetchTemplateDetail swallows
the throw (console warning only) and resolves null, so the error-push
branch of fetchAllTemplateDetails never fires. -/
theorem claimC5_counterexample :
    Examples.envDetail.detail Examples.summary1.id = .thrown "HTTP 500 fetching template 1" ∧
      (Templates.fetchAllTemplateDetails Examples.envDetail
          [Examples.summary1, Examples.summary2] []).2 = [] ∧
      ((Templates.fetchAllTemplateDetails Examples.envDetail
          [Examples.summary1, Examples.summary2] []).1.map (fun d => d.id)) = [2] := by
  refine ⟨by decide, ?_, ?_⟩
  · rw [Templates.fetchAllTemplateDetails_spec]
  · rw [Templates.fetchAllTemplateDetails_spec]
    decide

/-- C5 as amended: a per-template detail-fetch failure is terminal for
that single template only — every summary gets its own independent
fetch and the non-null results are all kept — but the failure is
swallowed after a console warning rather than appended to the run's
shared error list, which is returned unchanged. -/
theorem claimC5_detail_fault_isolation (env : Templates.DetailEnv)
    (summaries : List Templates.TemplateSearchResult) (errors : List String) :
    Templates.fetchAllTemplateDetails env summaries errors =
      (summaries.filterMap (fun s => Templates.fetchTemplateDetail env s.id), errors) :=
  Templates.fetchAllTemplateDetails_spec env summaries errors

/-- C9: buildFlowDescription terminates on every workflow graph — the
walk is total, and on the concrete two-node cycle it returns the
two-node flow — and it returns none exactly when the walk touches at
most one node. -/
theorem claimC9_flow_walk_terminates :
    Templates.buildFlowDescription Examples.cyclicWorkflow = some "A -> B" ∧
      ∀ workflow : Templates.FlowWorkflow,
        Templates.buildFlowDescription workflow = none ↔
          (Templates.flowPartsOf workflow).length ≤ 1 := by
  constructor
  · decide
  · intro workflow
    rw [Templates.buildFlowDescription, Templates.flowPartsOf]
    match workflow.connections, workflow.nodes with
    | none, _ => simp
    | some conns, none => simp
    | some conns, some nodes =>
      cases hf : nodes.find? Templates.isTriggerNode with
      | none => simp [hf]
      | some trig =>
        simp only [hf]
        by_cases hgt :
          1 < (Templates.walk conns 11 trig.name 0 ⟨[], []⟩).flowParts.length
        · simp only [if_pos hgt]
          simp
          omega
        · simp only [if_neg hgt]
          simp
          omega

/-- C10: on every template detail that buildTemplateRecord accepts, the
record's workflowJson carries the structural payload verbatim — its
nodes are exactly the detail's node list and its connections exactly
the detail's connection map, while only content is computed. -/
theorem claimC10_payload_passthrough (detail : Templates.TemplateDetail)
    (summary : Option Templates.TemplateSearchResult) (rec : Templates.TemplateRecord)
    (h : Templates.buildTemplateRecord detail summary = some rec) :
    rec.workflowJson.nodes = detail.workflowNodes ∧
      rec.workflowJson.connections = detail.workflowConnections := by
  rw [Templates.buildTemplateRecord] at h
  split at h
  · exact absurd h (by simp)
  · rw [Option.some_inj] at h
    subst h
    exact ⟨rfl, rfl⟩

/-- C10 witness: the pass-through holds at the concrete two-node
detail. -/
theorem claimC10_witness :
    Examples.recC10.workflowJson.nodes = Examples.detailC10.workflowNodes ∧
      Examples.recC10.workflowJson.connections = Examples.detailC10.workflowConnections :=
  claimC10_payload_passthrough Examples.detailC10 none Examples.recC10 (by decide)

/-- Folding max over a list with seed q is the list's maximum joined
with q. -/
theorem foldr_max_base (l : List ℚ) (q : ℚ) :
    l.foldr max q =
      match listMax l with
      | some m => max m q
      | none => q := by
  induction l with
  | nil => rfl
  | cons a l ih =>
    simp only [List.foldr, ih, listMax]
    cases listMax l with
    | none => rfl
    | some m => exact (max_assoc a m q).symm

/-- Math.max over the parsed versions and 1 equals the list maximum
joined with 1. -/
theorem foldr_max_one (l : List ℚ) : l.foldr max 1 = max ((listMax l).getD 1) 1 := by
  rw [foldr_max_base]
  cases listMax l with
  | none => simp
  | some m => rfl

/-- C7 counterexample: on the source text version: [0.5], the code's
extraction (Math.max over the parsed list and 1) yields 1, while the
claim's rule — the maximum of the enumerated list — yields 1/2. -/
theorem claimC7_counterexample :
    Ingest.extractDefaultVersion "version: [0.5]" = 1 ∧
      Ingest.specVersionOf "version: [0.5]" = mkRat 1 2 ∧
      Ingest.extractDefaultVersion "version: [0.5]" ≠
        Ingest.specVersionOf "version: [0.5]" := by
  refine ⟨by decide, by decide, by decide⟩

/-- C7 as amended: the extracted version is the explicit defaultVersion
capture when one matches; otherwise, for an enumerated version list, it
is the maximum of the list's parsed entries joined with 1 (never below
1); otherwise, for a scalar version number, it is that number unless it
parses to 0 (then 1); otherwise it is 1. -/
theorem claimC7_version_selection (content : String) :
    (∀ cap, Ingest.matchDefaultVersion content = some cap →
        Ingest.extractDefaultVersion content = (parseFloatQ cap.data).getD 1) ∧
      (Ingest.matchDefaultVersion content = none →
        ∀ raw, Ingest.matchVersion content = some (.arr raw) →
          Ingest.extractDefaultVersion content =
            max ((listMax (Ingest.parseVersionList raw)).getD 1) 1) ∧
      (Ingest.matchDefaultVersion content = none →
        ∀ raw, Ingest.matchVersion content = some (.scalar raw) →
          Ingest.extractDefaultVersion content =
            ((parseFloatQ raw.data).map (fun q => if q == 0 then 1 else q)).getD 1) ∧
      (Ingest.matchDefaultVersion content = none → Ingest.matchVersion content = none →
        Ingest.extractDefaultVersion content = 1) := by
  refine ⟨?_, ?_, ?_, ?_⟩
  · intro cap h
    simp only [Ingest.extractDefaultVersion, h]
  · intro hd raw hv
    simp only [Ingest.extractDefaultVersion, hd, hv]
    exact foldr_max_one _
  · intro hd raw hv
    simp only [Ingest.extractDefaultVersion, hd, hv]
    cases parseFloatQ raw.data with
    | none => rfl
    | some q => rfl
  · intro hd hv
    simp only [Ingest.extractDefaultVersion, hd, hv]

namespace Ingest

theorem finishWithTemplates_invoked (env : IngestEnv) (errs : List String)
    (n k : Nat) (stored : List StoredDoc) (log : List SyncLogEntry) :
    (finishWithTemplates env errs n k stored log).templateInvoked = true := by
  cases h : env.templateRun <;> simp [finishWithTemplates, h]

theorem finishWithTemplates_success (env : IngestEnv) (errs : List String)
    (n k : Nat) (stored : List StoredDoc) (log : List SyncLogEntry) :
    (finishWithTemplates env errs n k stored log).result.success =
      (finishWithTemplates env errs n k stored log).result.errors.isEmpty := by
  cases h : env.templateRun <;> simp [finishWithTemplates, h]

theorem finishWithTemplates_chunksCreated (env : IngestEnv) (errs : List String)
    (n k : Nat) (stored : List StoredDoc) (log : List SyncLogEntry) :
    (finishWithTemplates env errs n k stored log).result.chunksCreated = k := by
  cases h : env.templateRun <;> simp [finishWithTemplates, h]

theorem finishWithTemplates_nodesProcessed (env : IngestEnv) (errs : List String)
    (n k : Nat) (stored : List StoredDoc) (log : List SyncLogEntry) :
    (finishWithTemplates env errs n k stored log).result.nodesProcessed = n := by
  cases h : env.templateRun <;> simp [finishWithTemplates, h]

theorem finishWithTemplates_storedDocs (env : IngestEnv) (errs : List String)
    (n k : Nat) (stored : List StoredDoc) (log : List SyncLogEntry) :
    (finishWithTemplates env errs n k stored log).storedDocs = stored := by
  cases h : env.templateRun <;> simp [finishWithTemplates, h]

/-- The doc phase hands no caught throw to the outer catch when the
chunk set is empty (the embedding call is never made) or when the
embedding call, getRawSql and getDbUnpooled all succeed. -/
theorem docPhase_caught_none (df : Outcome (List (String × String)))
    (sf : Outcome (List (String × NodeSourceInfo)))
    (embed : List String → Outcome (List (List ℚ))) (rawSql db : Outcome Unit)
    (upsert : Nat → Outcome Unit)
    (h : (allChunksFrom (mapOfDocs df) (mapOfSource sf)).isEmpty = true ∨
      ((∃ es,
          embed ((allChunksFrom (mapOfDocs df) (mapOfSource sf)).map (fun c => c.content)) =
            .ok es) ∧
        rawSql = .ok () ∧ db = .ok ())) :
    (docPhase df sf embed rawSql db upsert).caught = none := by
  rcases h with h | ⟨⟨es, hemb⟩, hrs, hdb⟩
  · simp [docPhase, h]
  · by_cases hempty : (allChunksFrom (mapOfDocs df) (mapOfSource sf)).isEmpty
    · simp [docPhase, hempty]
    · simp [docPhase, hempty, hemb, hrs, hdb]

end Ingest

/-- C3: every execution of runIngestion returns a structured SyncResult
(the model is a total function: every throw point of the source is
routed through the outer catch, which itself only builds a value), and
on every path the returned success flag equals errors.length = 0. -/
theorem claimC3_success_iff_no_errors (env : Ingest.IngestEnv) :
    (Ingest.runIngestion env).result.success =
      (Ingest.runIngestion env).result.errors.isEmpty := by
  rw [Ingest.runIngestion]
  cases hc : (Ingest.docPhase env.docsFetch env.sourceFetch env.embed env.rawSql env.db
      env.upsert).caught with
  | some m =>
    simp only [hc]
    simp [Ingest.outerCatch]
  | none =>
    simp only [hc]
    exact Ingest.finishWithTemplates_success env _ _ _ _ _

/-- C2 counterexample: a concrete run whose chunk set is nonempty and
whose embedding call throws never invokes the template sub-run — the
thrown embedding error lands in the outer catch, past the template
block — refuting the claim for that failure mode of origin A. -/
theorem claimC2_counterexample :
    (Ingest.runIngestion Examples.envEmbedThrows).templateInvoked = false ∧
      (Ingest.allChunksOf Examples.envEmbedThrows).isEmpty = false ∧
      Examples.envEmbedThrows.embed
          ((Ingest.allChunksOf Examples.envEmbedThrows).map (fun c => c.content)) =
        .thrown "embedding provider unavailable" := by
  refine ⟨by decide, by decide, by decide⟩

/-- C2 as amended: the template sub-run is invoked (and its outcome
merged) whenever origin A fails only softly — the chunk set is empty
(covering total fetch failure) or the embedding and store-setup calls
succeed, per-record upsert failures notwithstanding; a thrown embedding
or store-setup error skips it. A failure of the template sub-run never
changes origin A's completed work: its chunksCreated count, stored rows
and nodesProcessed count are the same whatever runTemplateIngestion's
outcome. -/
theorem claimC2_template_isolation :
    (∀ env : Ingest.IngestEnv,
        ((Ingest.allChunksOf env).isEmpty = true ∨
          ((∃ es, env.embed ((Ingest.allChunksOf env).map (fun c => c.content)) = .ok es) ∧
            env.rawSql = .ok () ∧ env.db = .ok ())) →
        (Ingest.runIngestion env).templateInvoked = true) ∧
      (∀ (env : Ingest.IngestEnv) (o₁ o₂ : Outcome Templates.TemplateSyncResult),
        (Ingest.runIngestion { env with templateRun := o₁ }).result.chunksCreated =
            (Ingest.runIngestion { env with templateRun := o₂ }).result.chunksCreated ∧
          (Ingest.runIngestion { env with templateRun := o₁ }).storedDocs =
            (Ingest.runIngestion { env with templateRun := o₂ }).storedDocs ∧
          (Ingest.runIngestion { env with templateRun := o₁ }).result.nodesProcessed =
            (Ingest.runIngestion { env with templateRun := o₂ }).result.nodesProcessed) := by
  constructor
  · intro env h
    have hc : (Ingest.docPhase env.docsFetch env.sourceFetch env.embed env.rawSql env.db
        env.upsert).caught = none :=
      Ingest.docPhase_caught_none env.docsFetch env.sourceFetch env.embed env.rawSql env.db
        env.upsert h
    rw [Ingest.runIngestion]
    simp only [hc]
    exact Ingest.finishWithTemplates_invoked env _ _ _ _ _
  · intro env o₁ o₂
    rw [Ingest.runIngestion, Ingest.runIngestion]
    cases hc : (Ingest.docPhase env.docsFetch env.sourceFetch env.embed env.rawSql env.db
        env.upsert).caught with
    | some m =>
      simp [hc]
    | none =>
      simp only [hc]
      refine ⟨?_, ?_, ?_⟩
      · rw [Ingest.finishWithTemplates_chunksCreated, Ingest.finishWithTemplates_chunksCreated]
      · rw [Ingest.finishWithTemplates_storedDocs, Ingest.finishWithTemplates_storedDocs]
      · rw [Ingest.finishWithTemplates_nodesProcessed, Ingest.finishWithTemplates_nodesProcessed]

/-- A string is isEmpty exactly when it is the empty string. -/
theorem strIsEmpty_iff (s : String) : s.isEmpty = true ↔ s = "" := by
  cases s with
  | mk l =>
    cases l with
    | nil => constructor <;> intro h <;> rfl
    | cons c cs =>
      constructor
      · intro h
        exfalso
        have hpos := Char.utf8Size_pos c
        simp only [String.isEmpty, String.endPos, String.utf8ByteSize, beq_iff_eq,
          String.Pos.ext_iff] at h
        simp at h
        omega
      · intro h
        have := congrArg String.data h
        simp at this

namespace Ingest

theorem strLength_mk (l : List Char) : (String.mk l).length = l.length := rfl

theorem strLength_append (a b : String) : (a ++ b).length = a.length + b.length := by
  rcases a with ⟨la⟩
  rcases b with ⟨lb⟩
  show (String.mk (la ++ lb)).length = (String.mk la).length + (String.mk lb).length
  simp [strLength_mk]

/-- The truncated stored content never exceeds the cap plus the
13-character truncation marker. -/
theorem truncateContent_length (c : String) :
    (truncateContent c).length ≤ MAX_CONTENT_LENGTH + 13 := by
  rw [truncateContent]
  split
  · next h =>
    rw [strLength_append]
    have h1 : (sliceTo c MAX_CONTENT_LENGTH).length = min MAX_CONTENT_LENGTH c.length := by
      rw [sliceTo, strLength_mk, List.length_take]
      rfl
    have h2 : ("\n…[truncated]" : String).length = 13 := by decide
    rw [h1, h2]
    have h3 := Nat.min_le_left MAX_CONTENT_LENGTH c.length
    omega
  · next h => omega

/-- Every row the upsert loop stores carries truncated content. -/
theorem upsertChunks_stored (upsert : Nat → Outcome Unit) :
    ∀ (chunks : List NodeDocChunk) (idx : Nat) (row : StoredDoc),
      row ∈ (upsertChunks upsert chunks idx).2.2 →
      ∃ c, row.content = truncateContent c := by
  intro chunks
  induction chunks with
  | nil => intro idx row h; simp [upsertChunks] at h
  | cons chunk rest ih =>
    intro idx row h
    simp only [upsertChunks] at h
    cases hu : upsert idx with
    | ok _ =>
      rw [hu] at h
      rcases List.mem_cons.mp h with h | h
      · exact ⟨chunk.content, by rw [h]⟩
      · exact ih _ row h
    | thrown m =>
      rw [hu] at h
      exact ih _ row h

/-- Every row the doc phase stores carries truncated content. -/
theorem docPhase_stored (df : Outcome (List (String × String)))
    (sf : Outcome (List (String × NodeSourceInfo)))
    (embed : List String → Outcome (List (List ℚ))) (rawSql db : Outcome Unit)
    (upsert : Nat → Outcome Unit) :
    ∀ row ∈ (docPhase df sf embed rawSql db upsert).stored,
      ∃ c, row.content = truncateContent c := by
  intro row h
  simp only [docPhase] at h
  split at h
  · simp at h
  · split at h
    · simp at h
    · split at h
      · simp at h
      · split at h
        · simp at h
        · exact upsertChunks_stored upsert _ _ row h

/-- Every row a run stores carries truncated content. -/
theorem runIngestion_stored (env : IngestEnv) :
    ∀ row ∈ (runIngestion env).storedDocs, ∃ c, row.content = truncateContent c := by
  intro row h
  rw [runIngestion] at h
  cases hc : (docPhase env.docsFetch env.sourceFetch env.embed env.rawSql env.db
      env.upsert).caught with
  | some m =>
    simp only [hc] at h
    simp [outerCatch] at h
  | none =>
    simp only [hc] at h
    rw [finishWithTemplates_storedDocs] at h
    exact docPhase_stored env.docsFetch env.sourceFetch env.embed env.rawSql env.db
      env.upsert row h

end Ingest

/-- String.intercalate over a two-element list, unfolded. -/
theorem intercalate_two (s a b : String) : String.intercalate s [a, b] = (a ++ s) ++ b := rfl

/-- createNodeChunks always yields at least the overview chunk. -/
theorem createNodeChunks_isEmpty (nt : String) (dc : Option String)
    (si : Option Ingest.NodeSourceInfo) :
    (Ingest.createNodeChunks nt dc si).isEmpty = false := rfl

/-- The oversized properties summary has 2500 characters. -/
theorem bigProperties_length : Examples.bigProperties.length = 2500 := by
  rw [Examples.bigProperties, Ingest.strLength_mk, List.length_replicate]

/-- The oversized properties summary is truthy (nonempty). -/
theorem bigProperties_isEmpty : Examples.bigProperties.isEmpty = false := by
  cases h : Examples.bigProperties.isEmpty with
  | false => rfl
  | true =>
    exfalso
    have h2 := (strIsEmpty_iff _).mp h
    have h3 := congrArg String.length h2
    rw [bigProperties_length] at h3
    simp at h3

/-- With every upsert succeeding, the loop stores one truncated row per
chunk, in order. -/
theorem upsertChunks_ok_stored (chunks : List Ingest.NodeDocChunk) :
    ∀ idx, (Ingest.upsertChunks (fun _ => Outcome.ok ()) chunks idx).2.2 =
      chunks.map (fun c =>
        { nodeType := c.nodeType, chunkType := c.chunkType,
          content := Ingest.truncateContent c.content }) := by
  induction chunks with
  | nil => intro idx; simp [Ingest.upsertChunks]
  | cons c rest ih => intro idx; simp [Ingest.upsertChunks, ih]

/-- Truncating an over-cap content still stores more than the cap (the
13-character marker is appended after the cut). -/
theorem truncateContent_gt (c : String) (h : Ingest.MAX_CONTENT_LENGTH < c.length) :
    Ingest.MAX_CONTENT_LENGTH < (Ingest.truncateContent c).length := by
  rw [Ingest.truncateContent, if_pos h]
  rw [Ingest.strLength_append]
  have h1 : (sliceTo c Ingest.MAX_CONTENT_LENGTH).length =
      min Ingest.MAX_CONTENT_LENGTH c.length := by
    rw [sliceTo, Ingest.strLength_mk, List.length_take]
    rfl
  have h2 : ("\n…[truncated]" : String).length = 13 := by decide
  rw [h1, h2]
  omega

/-- When the chunk set is nonempty and the embedding and store-setup
calls succeed, the doc phase stores exactly what the upsert loop
stores. -/
theorem docPhase_stored_main (df : Outcome (List (String × String)))
    (sf : Outcome (List (String × Ingest.NodeSourceInfo)))
    (embed : List String → Outcome (List (List ℚ))) (rawSql db : Outcome Unit)
    (upsert : Nat → Outcome Unit) (es : List (List ℚ))
    (hne : (Ingest.allChunksFrom (Ingest.mapOfDocs df) (Ingest.mapOfSource sf)).isEmpty = false)
    (hemb : embed ((Ingest.allChunksFrom (Ingest.mapOfDocs df) (Ingest.mapOfSource sf)).map
      (fun c => c.content)) = .ok es)
    (hrs : rawSql = .ok ()) (hdb : db = .ok ()) :
    (Ingest.docPhase df sf embed rawSql db upsert).stored =
      (Ingest.upsertChunks upsert
        (Ingest.allChunksFrom (Ingest.mapOfDocs df) (Ingest.mapOfSource sf)) 0).2.2 := by
  simp [Ingest.docPhase, hne, hemb, hrs, hdb]

/-- With nonempty source properties, no credentials and no doc text, a
parameters chunk with the header-plus-properties content is among the
chunks built. -/
theorem createNodeChunks_params_mem (nt : String) (si : Ingest.NodeSourceInfo)
    (hp : si.properties.isEmpty = false) (hcr : si.credentials.isEmpty = true) :
    ∃ c ∈ Ingest.createNodeChunks nt none (some si),
      c.content = String.intercalate "\n"
        ["Parameters for " ++ si.displayName ++ " (" ++ nt ++ ") v" ++
          Ingest.jsNumToString si.defaultVersion ++ ":",
          "\nSource parameters:\n" ++ si.properties] := by
  simp [Ingest.createNodeChunks, hp, hcr]

/-- C1 counterexample: the run over envBigChunk — one node whose
parameters summary alone holds 2500 characters — stores a row whose
content is longer than MAX_CONTENT_LENGTH: the upsert path cuts at the
cap and then appends its 13-character truncation marker, so the stored
content has 2013 characters. -/
theorem claimC1_counterexample :
    ∃ row ∈ (Ingest.runIngestion Examples.envBigChunk).storedDocs,
      Ingest.MAX_CONTENT_LENGTH < row.content.length := by
  have hAC : Ingest.allChunksFrom (Ingest.mapOfDocs Examples.envBigChunk.docsFetch)
      (Ingest.mapOfSource Examples.envBigChunk.sourceFetch) =
      Ingest.createNodeChunks "n8n-nodes-base.big" none (some Examples.bigSourceInfo) ++ [] :=
    rfl
  rw [List.append_nil] at hAC
  have hne : (Ingest.allChunksFrom (Ingest.mapOfDocs Examples.envBigChunk.docsFetch)
      (Ingest.mapOfSource Examples.envBigChunk.sourceFetch)).isEmpty = false := by
    rw [hAC]
    exact createNodeChunks_isEmpty _ _ _
  have hcaught : (Ingest.docPhase Examples.envBigChunk.docsFetch
      Examples.envBigChunk.sourceFetch Examples.envBigChunk.embed Examples.envBigChunk.rawSql
      Examples.envBigChunk.db Examples.envBigChunk.upsert).caught = none := by
    apply Ingest.docPhase_caught_none
    right
    exact ⟨⟨_, rfl⟩, rfl, rfl⟩
  have hrun : (Ingest.runIngestion Examples.envBigChunk).storedDocs =
      (Ingest.docPhase Examples.envBigChunk.docsFetch Examples.envBigChunk.sourceFetch
        Examples.envBigChunk.embed Examples.envBigChunk.rawSql Examples.envBigChunk.db
        Examples.envBigChunk.upsert).stored := by
    rw [Ingest.runIngestion]
    simp only [hcaught]
    rw [Ingest.finishWithTemplates_storedDocs]
  have hstored := docPhase_stored_main Examples.envBigChunk.docsFetch
    Examples.envBigChunk.sourceFetch Examples.envBigChunk.embed Examples.envBigChunk.rawSql
    Examples.envBigChunk.db Examples.envBigChunk.upsert _ hne rfl rfl rfl
  obtain ⟨c, hcmem, hccontent⟩ :=
    createNodeChunks_params_mem "n8n-nodes-base.big" Examples.bigSourceInfo
      bigProperties_isEmpty rfl
  have hclen : Ingest.MAX_CONTENT_LENGTH < c.content.length := by
    have hproj : Examples.bigSourceInfo.properties = Examples.bigProperties := rfl
    rw [hccontent, intercalate_two]
    simp only [Ingest.strLength_append]
    rw [hproj, bigProperties_length, Ingest.MAX_CONTENT_LENGTH]
    omega
  refine ⟨⟨c.nodeType, c.chunkType, Ingest.truncateContent c.content⟩, ?_, ?_⟩
  · rw [hrun, hstored]
    have hup : Examples.envBigChunk.upsert = fun _ => Outcome.ok () := rfl
    rw [hup, upsertChunks_ok_stored]
    rw [hAC]
    exact List.mem_map_of_mem _ hcmem
  · exact truncateContent_gt c.content hclen

/-- The template-side truncation (ingest-templates.ts lines 362-365)
never exceeds the cap plus the 13-character truncation marker. -/
theorem truncTemplateContent_length (c : String) :
    (if c.length > Templates.MAX_CONTENT_LENGTH then
        sliceTo c Templates.MAX_CONTENT_LENGTH ++ "\n…[truncated]"
      else c).length ≤ Templates.MAX_CONTENT_LENGTH + 13 := by
  split
  · next h =>
    rw [Ingest.strLength_append]
    have h1 : (sliceTo c Templates.MAX_CONTENT_LENGTH).length =
        min Templates.MAX_CONTENT_LENGTH c.length := by
      rw [sliceTo, Ingest.strLength_mk, List.length_take]
      rfl
    have h2 : ("\n…[truncated]" : String).length = 13 := by decide
    rw [h1, h2]
    have h3 := Nat.min_le_left Templates.MAX_CONTENT_LENGTH c.length
    omega
  · next h => omega

/-- C1 as amended: every chunk row an ingestion run stores, and every
template record buildTemplateRecord emits, has content of length at
most its module's MAX_CONTENT_LENGTH plus the 13-character truncation
marker (2013 for documentation chunks, 3013 for template records);
truncation happens before storage. -/
theorem claimC1_content_cap :
    (∀ env : Ingest.IngestEnv, ∀ row ∈ (Ingest.runIngestion env).storedDocs,
        row.content.length ≤ Ingest.MAX_CONTENT_LENGTH + 13) ∧
      (∀ (detail : Templates.TemplateDetail)
        (summary : Option Templates.TemplateSearchResult)
        (rec : Templates.TemplateRecord),
        Templates.buildTemplateRecord detail summary = some rec →
        rec.content.length ≤ Templates.MAX_CONTENT_LENGTH + 13) := by
  constructor
  · intro env row h
    obtain ⟨c, hc⟩ := Ingest.runIngestion_stored env row h
    rw [hc]
    exact Ingest.truncateContent_length c
  · intro detail summary rec h
    rw [Templates.buildTemplateRecord] at h
    split at h
    · exact absurd h (by simp)
    · rw [Option.some_inj] at h
      subst h
      exact truncTemplateContent_length _

/-- C6 counterexample: the doc text hello contains no parameter heading
and no parameter table (extractParameterSection returns none) and no
source info exists, yet createNodeChunks produces a parameters chunk —
the guard checks only that doc text is present, not that a documented
parameter section exists. -/
theorem claimC6_counterexample :
    (Ingest.createNodeChunks "n8n-nodes-base.foo" (some "hello") none).any
        (fun c => c.chunkType == Ingest.ChunkType.parameters) = true ∧
      Ingest.extractParameterSection "hello" = none := by
  refine ⟨by decide, by decide⟩

/-- C6 as amended: createNodeChunks produces a parameters chunk exactly
when the parsed source info carries a nonempty properties summary or
the raw doc text is present and nonempty — whether the doc text holds a
documented parameter section only shapes that chunk's content, not its
existence. -/
theorem claimC6_parameters_chunk_iff (nodeType : String) (docContent : Option String)
    (sourceInfo : Option Ingest.NodeSourceInfo) :
    (∃ c ∈ Ingest.createNodeChunks nodeType docContent sourceInfo,
        c.chunkType = Ingest.ChunkType.parameters) ↔
      ((∃ si, sourceInfo = some si ∧ si.properties ≠ "") ∨
        (∃ d, docContent = some d ∧ d ≠ "")) := by
  cases sourceInfo with
  | none =>
    cases docContent with
    | none => simp [Ingest.createNodeChunks]
    | some d =>
      by_cases hd : d.isEmpty
      · have hd' : d = "" := (strIsEmpty_iff _).mp hd
        subst hd'
        simp [Ingest.createNodeChunks, hd]
      · have hd' : ¬d = "" := by
          intro he
          subst he
          exact hd rfl
        cases hp : Ingest.extractParameterSection d <;>
          cases hc : Ingest.extractCredentialSection d <;>
            cases he : Ingest.extractExamplesSection d <;>
              simp [Ingest.createNodeChunks, hd, hp, hc, he, hd']
  | some si =>
    cases docContent with
    | none =>
      by_cases hp : si.properties.isEmpty
      · by_cases hcr : si.credentials.isEmpty
        · simp [Ingest.createNodeChunks, hp, hcr, (strIsEmpty_iff _).mp hp,
            show ("" : String).isEmpty = true from rfl]
        · simp [Ingest.createNodeChunks, hp, hcr, (strIsEmpty_iff _).mp hp,
            show ("" : String).isEmpty = true from rfl]
      · have hp' : ¬si.properties = "" := by
          intro he
          rw [he] at hp
          exact hp rfl
        by_cases hcr : si.credentials.isEmpty
        · simp [Ingest.createNodeChunks, hp, hcr, hp']
        · simp [Ingest.createNodeChunks, hp, hcr, hp']
    | some d =>
      by_cases hd : d.isEmpty
      · have hd' : d = "" := (strIsEmpty_iff _).mp hd
        subst hd'
        by_cases hp : si.properties.isEmpty
        · by_cases hcr : si.credentials.isEmpty
          · simp [Ingest.createNodeChunks, hd, hp, hcr, (strIsEmpty_iff _).mp hp,
              show ("" : String).isEmpty = true from rfl]
          · simp [Ingest.createNodeChunks, hd, hp, hcr, (strIsEmpty_iff _).mp hp,
              show ("" : String).isEmpty = true from rfl]
        · have hp' : ¬si.properties = "" := by
            intro he
            rw [he] at hp
            exact hp rfl
          by_cases hcr : si.credentials.isEmpty
          · simp [Ingest.createNodeChunks, hd, hp, hcr, hp']
          · simp [Ingest.createNodeChunks, hd, hp, hcr, hp']
      · have hd' : ¬d = "" := by
          intro he
          subst he
          exact hd rfl
        by_cases hp : si.properties.isEmpty <;>
          by_cases hcr : si.credentials.isEmpty <;>
            cases hps : Ingest.extractParameterSection d <;>
              cases hcs : Ingest.extractCredentialSection d <;>
                cases hes : Ingest.extractExamplesSection d <;>
                  simp [Ingest.createNodeChunks, hd, hp, hcr, hps, hcs, hes, hd']

end RagSpec
